import Mathlib

/-!
Verification of the GenieClip spacing-calculator core.

The JavaScript source computes over IEEE doubles; numeric edge cases the
spec cares about are the non-finite values (NaN, ±Infinity).  We embed a
JS number as either an exact rational or one of the three non-finite
values, with the IEEE comparison / multiplication / division rules the
source relies on.  Rounding of finite doubles is not modelled: all the
claims are about guards, orderings and sign/monotonicity structure, which
are exact-arithmetic facts.
-/

/-- A JavaScript number: a finite value (modelled exactly as a rational),
positive or negative infinity, or NaN. -/
inductive JsNum : Type where
  | fin (q : ℚ)
  | posInf : JsNum
  | negInf : JsNum
  | nan : JsNum
deriving DecidableEq, Repr

/-- JS `isFinite`. -/
def JsNum.isFinite : JsNum → Bool
  | .fin _ => true
  | _ => false

/-- JS multiplication on the embedded numbers (IEEE rules: NaN propagates,
`0 * ±Infinity = NaN`, otherwise infinities keep the product's sign). -/
def JsNum.mul : JsNum → JsNum → JsNum
  | .nan, _ => .nan
  | _, .nan => .nan
  | .fin a, .fin b => .fin (a * b)
  | .fin a, .posInf => if 0 < a then .posInf else if a < 0 then .negInf else .nan
  | .fin a, .negInf => if 0 < a then .negInf else if a < 0 then .posInf else .nan
  | .posInf, .fin b => if 0 < b then .posInf else if b < 0 then .negInf else .nan
  | .negInf, .fin b => if 0 < b then .negInf else if b < 0 then .posInf else .nan
  | .posInf, .posInf => .posInf
  | .posInf, .negInf => .negInf
  | .negInf, .posInf => .negInf
  | .negInf, .negInf => .posInf

/-- JS division (IEEE rules: NaN propagates, `x / 0` is a signed infinity
for nonzero `x` and NaN for `0 / 0`, a finite value over an infinity is 0,
an infinity over an infinity is NaN).  Signed zero is not distinguished. -/
def JsNum.div : JsNum → JsNum → JsNum
  | .nan, _ => .nan
  | _, .nan => .nan
  | .fin a, .fin b =>
      if b = 0 then (if 0 < a then .posInf else if a < 0 then .negInf else .nan)
      else .fin (a / b)
  | .fin _, .posInf => .fin 0
  | .fin _, .negInf => .fin 0
  | .posInf, .fin b => if 0 ≤ b then .posInf else .negInf
  | .negInf, .fin b => if 0 ≤ b then .negInf else .posInf
  | .posInf, .posInf => .nan
  | .posInf, .negInf => .nan
  | .negInf, .posInf => .nan
  | .negInf, .negInf => .nan

/-- JS `x <= y` (false whenever either side is NaN). -/
def JsNum.leb : JsNum → JsNum → Bool
  | .fin a, .fin b => decide (a ≤ b)
  | .fin _, .posInf => true
  | .posInf, .posInf => true
  | .negInf, .fin _ => true
  | .negInf, .posInf => true
  | .negInf, .negInf => true
  | _, _ => false

/-- JS `x < y` (false whenever either side is NaN). -/
def JsNum.ltb : JsNum → JsNum → Bool
  | .fin a, .fin b => decide (a < b)
  | .fin _, .posInf => true
  | .negInf, .fin _ => true
  | .negInf, .posInf => true
  | _, _ => false

/-- The mount mode for clouds, `"distributed" | "dedicated"` in the source. -/
inductive MountMode : Type where
  | distributed : MountMode
  | dedicated : MountMode
deriving DecidableEq, Repr

/-- One evaluated spacing combination, the record pushed by `calcCombos`.
Spacing candidates are plain finite numbers, so `channelOC`, `clipOC` and
`tribAreaFt2` are rationals; the load and safety factor can be non-finite
when the grid load is, so they are `JsNum`. -/
structure Combo : Type where
  channelOC : ℚ
  clipOC : ℚ
  tribAreaFt2 : ℚ
  loadPerClip : JsNum
  pass : Bool
  safety : JsNum
deriving DecidableEq, Repr

/-- The parameter record passed to `calcCombos`. -/
structure ComboParams : Type where
  gridPsf : JsNum
  allowedChannelSpacings : List ℚ
  allowedClipSpacings : List ℚ
  constrainToStructure : Bool
  structureSpacing : ℚ
  clipCap : ℚ
deriving DecidableEq, Repr

/-- JS `Array.from(new Set(xs)).sort((a, b) => a - b)`: de-duplicate, then
sort ascending.  The value sequence of the result is determined by the set
of values alone, so the dedup order does not matter. -/
def dedupSortAsc (xs : List ℚ) : List ℚ :=
  List.insertionSort (fun a b => a ≤ b) xs.dedup

/-- Body of the double loop in `calcCombos`: evaluate one `(channel, clip)`
spacing pair against the grid load and capacity. -/
def mkCombo (gridPsf : JsNum) (clipCap : ℚ) (ch cl : ℚ) : Combo :=
  let tribAreaFt2 : ℚ := (ch * cl) / 144
  let loadPerClip : JsNum := JsNum.mul (JsNum.fin tribAreaFt2) gridPsf
  { channelOC := ch
    clipOC := cl
    tribAreaFt2 := tribAreaFt2
    loadPerClip := loadPerClip
    pass := loadPerClip.isFinite && JsNum.leb loadPerClip (JsNum.fin clipCap)
    safety :=
      if loadPerClip.isFinite && JsNum.ltb (JsNum.fin 0) loadPerClip then
        JsNum.div (JsNum.fin clipCap) loadPerClip
      else JsNum.posInf }

/-- The spacing product `channelOC * clipOC` that the final sort orders by. -/
def prodKey (c : Combo) : ℚ := c.channelOC * c.clipOC

/-- The descending-by-spacing-product order used by the sort at the end of
`calcCombos` (`(a, b) => b.channelOC * b.clipOC - a.channelOC * a.clipOC`). -/
def comboDescOrder : Combo → Combo → Prop := fun x y => prodKey y ≤ prodKey x

instance : DecidableRel comboDescOrder := fun x y =>
  inferInstanceAs (Decidable (prodKey y ≤ prodKey x))

instance : IsTotal Combo comboDescOrder :=
  ⟨fun x y => le_total (prodKey y) (prodKey x)⟩

instance : IsTrans Combo comboDescOrder :=
  ⟨fun _ _ _ h h' => le_trans h' h⟩

/-- The dimension-A candidate list built by `calcCombos`. -/
def channelsOf (p : ComboParams) : List ℚ :=
  dedupSortAsc p.allowedChannelSpacings

/-- The dimension-B candidate list built by `calcCombos`: the singleton
`[structureSpacing]` when constrained to structure, else the de-duplicated
sorted clip spacings. -/
def clipsOf (p : ComboParams) : List ℚ :=
  if p.constrainToStructure then [p.structureSpacing] else dedupSortAsc p.allowedClipSpacings

/-- `calcCombos`: full cross product of the two candidate lists, each pair
evaluated by `mkCombo`, then stably sorted descending by spacing product.
JS `Array.prototype.sort` is stable and the comparator is a total preorder,
so insertion sort produces the same sequence. -/
def calcCombos (p : ComboParams) : List Combo :=
  List.insertionSort comboDescOrder
    ((channelsOf p).flatMap fun ch => (clipsOf p).map fun cl => mkCombo p.gridPsf p.clipCap ch cl)

/-- `firstPassing`: linear scan returning the first element with `pass = true`,
or `none` (JS `null`). -/
def firstPassing : List Combo → Option Combo
  | [] => none
  | c :: cs => if c.pass then some c else firstPassing cs

/-- `calcCloudAvgPsf`: the cloud contribution to the grid load. -/
def calcCloudAvgPsf (mountMode : MountMode) (areaFt2 totalCloudWeightLb : JsNum) : JsNum :=
  if mountMode = MountMode.distributed ∧ JsNum.ltb (JsNum.fin 0) areaFt2 = true then
    JsNum.div totalCloudWeightLb areaFt2
  else JsNum.fin 0

/-- One row of the dedicated cloud clip check. -/
structure DedicatedRow : Type where
  name : String
  load : ℚ
  pass : Bool
  safety : JsNum
deriving DecidableEq, Repr

/-- `dedicatedRows`: empty unless the mount mode is `dedicated`; otherwise the
four fixed per-weight-class rows, each with per-clip load `classWeight / 4`,
checked against the clip capacity (`CLIP_CAP = 36` at the call site). -/
def dedicatedRows (mountMode : MountMode) (clipCap : ℚ) : List DedicatedRow :=
  if mountMode ≠ MountMode.dedicated then [] else
    ([("4x1 (15 lb)", (15 : ℚ) / 4), ("4x2 (30 lb)", (30 : ℚ) / 4),
      ("4x3 (45 lb)", (45 : ℚ) / 4), ("4x4 (60 lb)", (60 : ℚ) / 4)] :
        List (String × ℚ)).map fun x =>
      { name := x.1
        load := x.2
        pass := decide (x.2 ≤ clipCap)
        safety := if (0 : ℚ) < x.2 then JsNum.fin (clipCap / x.2) else JsNum.posInf }

/-- `estimatedClipsOnGrid`: 0 with no recommendation or non-positive area,
else `ceil(area / max(tribAreaFt2, 1e-6))`. -/
def estimatedClipsOnGrid (rec : Option Combo) (area : ℚ) : ℤ :=
  match rec with
  | none => 0
  | some r => if area ≤ 0 then 0 else ⌈area / max r.tribAreaFt2 (1 / 1000000)⌉

/-- `dedicatedCloudClips`: 0 unless the mount mode is `dedicated`, else
4 clips per cloud over the four cloud counts. -/
def dedicatedCloudClips (mountMode : MountMode) (c4x1 c4x2 c4x3 c4x4 : ℕ) : ℕ :=
  if mountMode ≠ MountMode.dedicated then 0 else (c4x1 + c4x2 + c4x3 + c4x4) * 4

/-- `totalClips = estimatedClipsOnGrid + dedicatedCloudClips`. -/
def totalClips (rec : Option Combo) (area : ℚ) (mountMode : MountMode)
    (c4x1 c4x2 c4x3 c4x4 : ℕ) : ℤ :=
  estimatedClipsOnGrid rec area + dedicatedCloudClips mountMode c4x1 c4x2 c4x3 c4x4

/-- Positivity of all spacing candidates actually used, as assumed by the
monotonicity and selection claims. -/
def PosSpacings (p : ComboParams) : Prop :=
  (∀ x ∈ p.allowedChannelSpacings, 0 < x) ∧
  (p.constrainToStructure = true → 0 < p.structureSpacing) ∧
  (p.constrainToStructure = false → ∀ x ∈ p.allowedClipSpacings, 0 < x)

instance (p : ComboParams) : Decidable (PosSpacings p) := by
  unfold PosSpacings; infer_instance

/-! ### Structural lemmas about the embedding -/

/-- Membership in the de-duplicated sorted candidate list is membership in
the raw input list. -/
theorem mem_dedupSortAsc {x : ℚ} {xs : List ℚ} : x ∈ dedupSortAsc xs ↔ x ∈ xs := by
  unfold dedupSortAsc
  rw [(List.perm_insertionSort _ _).mem_iff, List.mem_dedup]

/-- The enumerated sequence is sorted descending by spacing product. -/
theorem calcCombos_sorted (p : ComboParams) :
    List.Sorted comboDescOrder (calcCombos p) :=
  List.sorted_insertionSort comboDescOrder _

/-- A combo is in the enumerated sequence exactly when it is the evaluation
of some candidate pair from the two dimension lists. -/
theorem mem_calcCombos {p : ComboParams} {c : Combo} :
    c ∈ calcCombos p ↔
      ∃ ch ∈ channelsOf p, ∃ cl ∈ clipsOf p, mkCombo p.gridPsf p.clipCap ch cl = c := by
  unfold calcCombos
  rw [(List.perm_insertionSort comboDescOrder _).mem_iff]
  simp [List.mem_flatMap, List.mem_map]

/-- A `flatMap` whose per-element blocks all have the same length. -/
theorem length_flatMap_const {α β : Type} (l : List α) (g : α → List β) (n : ℕ)
    (h : ∀ a, (g a).length = n) : (l.flatMap g).length = l.length * n := by
  induction l with
  | nil => simp
  | cons a l ih =>
    simp [List.flatMap_cons, List.length_append, h, ih, Nat.succ_mul, Nat.add_comm]

/-- The enumerated sequence has one element per candidate pair. -/
theorem length_calcCombos (p : ComboParams) :
    (calcCombos p).length = (channelsOf p).length * (clipsOf p).length := by
  unfold calcCombos
  rw [(List.perm_insertionSort comboDescOrder _).length_eq]
  exact length_flatMap_const _ _ _ fun a => List.length_map _ _

/-- Positive spacing constraints give positive dimension-A candidates. -/
theorem channelsOf_pos {p : ComboParams} (hpos : PosSpacings p) :
    ∀ ch ∈ channelsOf p, 0 < ch :=
  fun ch h => hpos.1 ch (mem_dedupSortAsc.mp h)

/-- Positive spacing constraints give positive dimension-B candidates. -/
theorem clipsOf_pos {p : ComboParams} (hpos : PosSpacings p) :
    ∀ cl ∈ clipsOf p, 0 < cl := by
  intro cl h
  cases hcs : p.constrainToStructure with
  | true =>
    simp [clipsOf, hcs] at h
    exact h ▸ hpos.2.1 hcs
  | false =>
    simp [clipsOf, hcs, mem_dedupSortAsc] at h
    exact hpos.2.2 hcs cl h

/-- Field equations of `mkCombo` that hold for any grid load. -/
theorem mkCombo_pass_eq (g : JsNum) (cap ch cl : ℚ) :
    (mkCombo g cap ch cl).pass =
      ((mkCombo g cap ch cl).loadPerClip.isFinite &&
        JsNum.leb (mkCombo g cap ch cl).loadPerClip (JsNum.fin cap)) := rfl

theorem mkCombo_safety_eq (g : JsNum) (cap ch cl : ℚ) :
    (mkCombo g cap ch cl).safety =
      (if (mkCombo g cap ch cl).loadPerClip.isFinite &&
          JsNum.ltb (JsNum.fin 0) (mkCombo g cap ch cl).loadPerClip then
        JsNum.div (JsNum.fin cap) (mkCombo g cap ch cl).loadPerClip
      else JsNum.posInf) := rfl

/-- With a finite grid load every field of `mkCombo` is a finite rational
computation. -/
theorem mkCombo_fin_load (g cap ch cl : ℚ) :
    (mkCombo (JsNum.fin g) cap ch cl).loadPerClip = JsNum.fin (ch * cl / 144 * g) := rfl

theorem mkCombo_fin_pass (g cap ch cl : ℚ) :
    (mkCombo (JsNum.fin g) cap ch cl).pass = decide (ch * cl / 144 * g ≤ cap) := by
  simp [mkCombo, JsNum.mul, JsNum.isFinite, JsNum.leb]

theorem mkCombo_fin_safety (g cap ch cl : ℚ) :
    (mkCombo (JsNum.fin g) cap ch cl).safety =
      (if 0 < ch * cl / 144 * g then JsNum.fin (cap / (ch * cl / 144 * g))
       else JsNum.posInf) := by
  by_cases h : 0 < ch * cl / 144 * g
  · simp [mkCombo, JsNum.mul, JsNum.isFinite, JsNum.ltb, JsNum.div, h, ne_of_gt h]
  · simp [mkCombo, JsNum.mul, JsNum.isFinite, JsNum.ltb, JsNum.div, h]

/-- `firstPassing` returns `none` exactly when nothing in the list passes. -/
theorem firstPassing_eq_none {l : List Combo} :
    firstPassing l = none ↔ ∀ c ∈ l, c.pass = false := by
  induction l with
  | nil => simp [firstPassing]
  | cons x xs ih =>
    cases hx : x.pass with
    | true => simp [firstPassing, hx]
    | false => simp [firstPassing, hx, ih]

/-- On a list sorted descending by spacing product, `firstPassing` returns a
passing element of maximal spacing product among the passing elements. -/
theorem firstPassing_spec {l : List Combo} {c : Combo}
    (hs : List.Sorted comboDescOrder l) (h : firstPassing l = some c) :
    c.pass = true ∧ ∀ d ∈ l, d.pass = true → prodKey d ≤ prodKey c := by
  induction l with
  | nil => simp [firstPassing] at h
  | cons x xs ih =>
    rw [List.sorted_cons] at hs
    cases hx : x.pass with
    | true =>
      rw [firstPassing, if_pos hx] at h
      obtain rfl : x = c := by injection h
      refine ⟨hx, ?_⟩
      intro d hd _
      rcases List.mem_cons.mp hd with rfl | hd'
      · exact le_refl _
      · exact hs.1 d hd'
    | false =>
      rw [firstPassing, if_neg (by simp [hx])] at h
      obtain ⟨hcp, hmax⟩ := ih hs.2 h
      refine ⟨hcp, ?_⟩
      intro d hd hdp
      rcases List.mem_cons.mp hd with rfl | hd'
      · exact absurd hdp (by simp [hx])
      · exact hmax d hd' hdp

/-! ### Concrete inputs used by the witness theorems -/

/-- The spec's scenario 1 inputs: grid load 4.9 psf (49/10), channels
{16, 24}, clips {48}, capacity 36. -/
def pEx : ComboParams :=
  { gridPsf := JsNum.fin (49 / 10)
    allowedChannelSpacings := [16, 24]
    allowedClipSpacings := [48]
    constrainToStructure := false
    structureSpacing := 48
    clipCap := 36 }

/-- A non-finite grid load (+Infinity) with a single spacing pair. -/
def pInfEx : ComboParams :=
  { gridPsf := JsNum.posInf
    allowedChannelSpacings := [12]
    allowedClipSpacings := [12]
    constrainToStructure := false
    structureSpacing := 48
    clipCap := 36 }

/-- The single combo enumerated for `pInfEx`. -/
def cInfEx : Combo := mkCombo JsNum.posInf 36 12 12

/-- The scenario inputs with a negative grid load. -/
def pNegEx : ComboParams := { pEx with gridPsf := JsNum.fin (-1) }

/-! ### The claims -/

/-- C1: for every finite grid load and positive spacing constraints, if
`firstPassing` applied to the enumerated sequence returns a combo, that
combo passes and no other combo in the sequence with `pass = true` has a
strictly larger spacing product; it returns `none` exactly when no combo in
the sequence passes. -/
theorem C1_firstPassing_correct (p : ComboParams) (g : ℚ)
    (_hg : p.gridPsf = JsNum.fin g) (_hpos : PosSpacings p) :
    (∀ c, firstPassing (calcCombos p) = some c →
      c.pass = true ∧ ∀ d ∈ calcCombos p, d.pass = true → ¬ prodKey c < prodKey d) ∧
    (firstPassing (calcCombos p) = none ↔ ∀ d ∈ calcCombos p, d.pass = false) := by
  constructor
  · intro c hc
    obtain ⟨hcp, hmax⟩ := firstPassing_spec (calcCombos_sorted p) hc
    exact ⟨hcp, fun d hd hdp => not_lt.mpr (hmax d hd hdp)⟩
  · exact firstPassing_eq_none

/-- Witness for C1 at the spec's scenario-1 inputs. -/
theorem C1_firstPassing_correct_w :
    (∀ c, firstPassing (calcCombos pEx) = some c →
      c.pass = true ∧ ∀ d ∈ calcCombos pEx, d.pass = true → ¬ prodKey c < prodKey d) ∧
    (firstPassing (calcCombos pEx) = none ↔ ∀ d ∈ calcCombos pEx, d.pass = false) :=
  C1_firstPassing_correct pEx (49 / 10) rfl (by decide)

/-- C2: for every input, adjacent elements of the enumerated sequence have
non-increasing spacing products. -/
theorem C2_adjacent_ordering (p : ComboParams) :
    List.Chain' (fun x y => prodKey y ≤ prodKey x) (calcCombos p) :=
  List.Pairwise.chain' (calcCombos_sorted p)

/-- C3 counterexample: with grid load +Infinity the single enumerated combo
has `loadPerClip = +Infinity`, which satisfies the JS comparison
`loadPerClip > 0`, yet its safety factor is `+Infinity` and not
`capacity / loadPerClip` (which is 0) as the claim's rule dictates. -/
theorem C3_counterexample :
    calcCombos pInfEx = [cInfEx] ∧
    JsNum.ltb (JsNum.fin 0) cInfEx.loadPerClip = true ∧
    cInfEx.safety ≠ JsNum.div (JsNum.fin pInfEx.clipCap) cInfEx.loadPerClip := by
  with_unfolding_all decide

/-- C3 amended: for every combo produced by `calcCombos`,
`safetyFactor = capacity / loadPerFastener` when the load is finite and
`> 0`, and `+Infinity` in every other case — in particular a non-finite
load (NaN or ±Infinity) always yields `safetyFactor = +Infinity`. -/
theorem C3_safety_rule (p : ComboParams) (c : Combo) (hc : c ∈ calcCombos p) :
    (c.loadPerClip.isFinite = true ∧ JsNum.ltb (JsNum.fin 0) c.loadPerClip = true →
      c.safety = JsNum.div (JsNum.fin p.clipCap) c.loadPerClip) ∧
    (¬(c.loadPerClip.isFinite = true ∧ JsNum.ltb (JsNum.fin 0) c.loadPerClip = true) →
      c.safety = JsNum.posInf) := by
  obtain ⟨ch, _, cl, _, rfl⟩ := mem_calcCombos.mp hc
  rw [mkCombo_safety_eq]
  constructor
  · intro ⟨h1, h2⟩
    rw [if_pos (by rw [h1, h2]; rfl)]
  · intro h
    rw [if_neg]
    intro hb
    exact h (by constructor <;> [exact (Bool.and_eq_true _ _ ▸ hb).1;
      exact (Bool.and_eq_true _ _ ▸ hb).2])

/-- Witness for C3's amended rule at a finite positive load. -/
theorem C3_safety_rule_w :
    (mkCombo (JsNum.fin (49 / 10)) 36 16 48).safety =
      JsNum.div (JsNum.fin pEx.clipCap) (mkCombo (JsNum.fin (49 / 10)) 36 16 48).loadPerClip :=
  (C3_safety_rule pEx (mkCombo (JsNum.fin (49 / 10)) 36 16 48)
    (by with_unfolding_all decide)).1 (by with_unfolding_all decide)

/-- C4 counterexample: the dedicated-class check is not mount-mode
independent — in distributed mode it returns the empty sequence, not the
four per-class results. -/
theorem C4_counterexample :
    dedicatedRows MountMode.distributed 36 = [] ∧
    dedicatedRows MountMode.distributed 36 ≠ dedicatedRows MountMode.dedicated 36 := by
  decide

/-- C4 amended: in dedicated mode the check returns, independent of the
cloud counts (which it does not even consume), the four per-class results
for classes {15, 30, 45, 60}, each with per-fastener load `classWeight / 4`
and `passes = (perFastenerLoad ≤ capacity)`; in any other mount mode it
returns the empty sequence. -/
theorem C4_dedicated_classes (cap : ℚ) (m : MountMode) :
    (m = MountMode.dedicated →
      (dedicatedRows m cap).map (fun r => (r.load, r.pass)) =
        ([15, 30, 45, 60] : List ℚ).map (fun w => (w / 4, decide (w / 4 ≤ cap)))) ∧
    (m ≠ MountMode.dedicated → dedicatedRows m cap = []) := by
  cases m with
  | distributed =>
    refine ⟨?_, fun _ => ?_⟩
    · intro h
      cases h
    · simp [dedicatedRows]
  | dedicated =>
    refine ⟨fun _ => ?_, fun h => absurd rfl h⟩
    simp [dedicatedRows]

/-- Witness for C4's amended statement at capacity 36. -/
theorem C4_dedicated_classes_w :
    (dedicatedRows MountMode.dedicated 36).map (fun r => (r.load, r.pass)) =
      ([15, 30, 45, 60] : List ℚ).map (fun w => (w / 4, decide (w / 4 ≤ (36 : ℚ)))) ∧
    dedicatedRows MountMode.distributed 36 = [] :=
  ⟨(C4_dedicated_classes 36 MountMode.dedicated).1 rfl,
   (C4_dedicated_classes 36 MountMode.distributed).2 (by decide)⟩

/-- C5: the cloud contribution is `cloudWeight / area` exactly when the
mount mode is distributed and `area > 0` holds under JS comparison, and is
the finite value 0 in every other case; in particular a zero area in
distributed mode yields 0, never NaN or an infinity. -/
theorem C5_cloud_contribution (m : MountMode) (area w : JsNum) :
    (m = MountMode.distributed ∧ JsNum.ltb (JsNum.fin 0) area = true →
      calcCloudAvgPsf m area w = JsNum.div w area) ∧
    (¬(m = MountMode.distributed ∧ JsNum.ltb (JsNum.fin 0) area = true) →
      calcCloudAvgPsf m area w = JsNum.fin 0) ∧
    (area = JsNum.fin 0 → calcCloudAvgPsf m area w = JsNum.fin 0) := by
  refine ⟨fun h => ?_, fun h => ?_, fun h => ?_⟩
  · rw [calcCloudAvgPsf, if_pos h]
  · rw [calcCloudAvgPsf, if_neg h]
  · subst h
    rw [calcCloudAvgPsf, if_neg]
    rintro ⟨-, hlt⟩
    exact absurd hlt (by decide)

/-- Witness for C5 at the spec's scenario-2 inputs (area 0, weight 240)
and at a positive area. -/
theorem C5_cloud_contribution_w :
    calcCloudAvgPsf MountMode.distributed (JsNum.fin 400) (JsNum.fin 240) =
      JsNum.div (JsNum.fin 240) (JsNum.fin 400) ∧
    calcCloudAvgPsf MountMode.distributed (JsNum.fin 0) (JsNum.fin 240) = JsNum.fin 0 :=
  ⟨(C5_cloud_contribution MountMode.distributed (JsNum.fin 400) (JsNum.fin 240)).1
      ⟨rfl, by decide⟩,
   (C5_cloud_contribution MountMode.distributed (JsNum.fin 0) (JsNum.fin 240)).2.2 rfl⟩

/-- C6: a combo produced by `calcCombos` (fixed capacity 36) whose load is
finite and negative passes; the pass flag is exactly the JS comparison
`loadPerClip <= clipCap` for finite loads. -/
theorem C6_negative_load_passes (p : ComboParams) (c : Combo) (q : ℚ)
    (hcap : p.clipCap = 36) (hc : c ∈ calcCombos p)
    (hl : c.loadPerClip = JsNum.fin q) (hq : q < 0) :
    c.pass = JsNum.leb c.loadPerClip (JsNum.fin p.clipCap) ∧ c.pass = true := by
  obtain ⟨ch, _, cl, _, rfl⟩ := mem_calcCombos.mp hc
  constructor
  · rw [mkCombo_pass_eq, hl]
    simp [JsNum.isFinite]
  · rw [mkCombo_pass_eq, hl, hcap]
    simp [JsNum.isFinite, JsNum.leb]
    exact le_of_lt (lt_of_lt_of_le hq (by norm_num))

/-- Witness for C6: grid load -1 over scenario-1 spacings. -/
theorem C6_negative_load_passes_w :
    (mkCombo (JsNum.fin (-1)) 36 16 48).pass =
      JsNum.leb (mkCombo (JsNum.fin (-1)) 36 16 48).loadPerClip (JsNum.fin pNegEx.clipCap) ∧
    (mkCombo (JsNum.fin (-1)) 36 16 48).pass = true :=
  C6_negative_load_passes pNegEx (mkCombo (JsNum.fin (-1)) 36 16 48)
    (16 * 48 / 144 * (-1)) rfl (by with_unfolding_all decide) rfl (by norm_num)

/-- C7: the enumerated sequence has exactly one element per candidate pair
of the two dimension lists, every candidate pair's combo appears in it, and
a combo with a non-finite load is marked `pass = false` rather than being
dropped. -/
theorem C7_nonfinite_not_dropped (p : ComboParams) :
    (calcCombos p).length = (channelsOf p).length * (clipsOf p).length ∧
    (∀ ch ∈ channelsOf p, ∀ cl ∈ clipsOf p,
      mkCombo p.gridPsf p.clipCap ch cl ∈ calcCombos p) ∧
    (∀ c ∈ calcCombos p, c.loadPerClip.isFinite = false → c.pass = false) := by
  refine ⟨length_calcCombos p, ?_, ?_⟩
  · intro ch hch cl hcl
    exact mem_calcCombos.mpr ⟨ch, hch, cl, hcl, rfl⟩
  · intro c hc hnf
    obtain ⟨ch, _, cl, _, rfl⟩ := mem_calcCombos.mp hc
    rw [mkCombo_pass_eq, hnf]
    rfl

/-- Witness for C7 at the +Infinity grid load. -/
theorem C7_nonfinite_not_dropped_w :
    (calcCombos pInfEx).length = 1 ∧ cInfEx ∈ calcCombos pInfEx ∧ cInfEx.pass = false :=
  ⟨(C7_nonfinite_not_dropped pInfEx).1.trans (by with_unfolding_all decide),
   (C7_nonfinite_not_dropped pInfEx).2.1 12 (by with_unfolding_all decide) 12
     (by with_unfolding_all decide),
   (C7_nonfinite_not_dropped pInfEx).2.2 cInfEx (by with_unfolding_all decide)
     (by with_unfolding_all decide)⟩

/-- C8: with positive spacings and fixed capacity 36, raising the finite
grid load from `g1` to `g2 ≥ g1` maps every enumerated combo to a combo
with the same two spacing dimensions whose pass flag cannot turn from
failing to passing and whose safety factor does not increase. -/
theorem C8_gridLoad_monotone (p : ComboParams) (g1 g2 : ℚ)
    (hp : p.gridPsf = JsNum.fin g1) (hg : g1 ≤ g2)
    (hcap : p.clipCap = 36) (hpos : PosSpacings p)
    (c1 : Combo) (hc1 : c1 ∈ calcCombos p) :
    ∃ c2 ∈ calcCombos { p with gridPsf := JsNum.fin g2 },
      c2.channelOC = c1.channelOC ∧ c2.clipOC = c1.clipOC ∧
      (c1.pass = false → c2.pass = false) ∧
      JsNum.leb c2.safety c1.safety = true := by
  obtain ⟨ch, hch, cl, hcl, rfl⟩ := mem_calcCombos.mp hc1
  have hch0 : 0 < ch := channelsOf_pos hpos ch hch
  have hcl0 : 0 < cl := clipsOf_pos hpos cl hcl
  have ht : 0 < ch * cl / 144 := div_pos (mul_pos hch0 hcl0) (by norm_num)
  have hmul : ch * cl / 144 * g1 ≤ ch * cl / 144 * g2 :=
    mul_le_mul_of_nonneg_left hg ht.le
  refine ⟨mkCombo (JsNum.fin g2) p.clipCap ch cl,
    mem_calcCombos.mpr ⟨ch, hch, cl, hcl, rfl⟩, rfl, rfl, ?_, ?_⟩
  · rw [hp, hcap, mkCombo_fin_pass, mkCombo_fin_pass]
    intro h1
    rw [decide_eq_false_iff_not] at h1 ⊢
    exact fun h2 => h1 (le_trans hmul h2)
  · rw [hp, hcap, mkCombo_fin_safety, mkCombo_fin_safety]
    by_cases h1 : 0 < ch * cl / 144 * g1
    · have h2 : 0 < ch * cl / 144 * g2 := lt_of_lt_of_le h1 hmul
      rw [if_pos h1, if_pos h2]
      simp [JsNum.leb]
      exact div_le_div_of_nonneg_left (by norm_num) h1 hmul
    · rw [if_neg h1]
      by_cases h2 : 0 < ch * cl / 144 * g2
      · rw [if_pos h2]
        rfl
      · rw [if_neg h2]
        rfl

/-- Witness for C8: scenario-1 inputs, grid load raised from 4.9 to 5,
applied to the failing combo (24, 48). -/
theorem C8_gridLoad_monotone_w :
    ∃ c2 ∈ calcCombos { pEx with gridPsf := JsNum.fin 5 },
      c2.channelOC = (mkCombo (JsNum.fin (49 / 10)) 36 24 48).channelOC ∧
      c2.clipOC = (mkCombo (JsNum.fin (49 / 10)) 36 24 48).clipOC ∧
      ((mkCombo (JsNum.fin (49 / 10)) 36 24 48).pass = false → c2.pass = false) ∧
      JsNum.leb c2.safety (mkCombo (JsNum.fin (49 / 10)) 36 24 48).safety = true :=
  C8_gridLoad_monotone pEx (49 / 10) 5 rfl (by norm_num) rfl
    (by with_unfolding_all decide)
    (mkCombo (JsNum.fin (49 / 10)) 36 24 48) (by with_unfolding_all decide)

/-- C9: the fastening summary always satisfies
`totalClips = estimatedClipsOnGrid + dedicatedCloudClips`; the dedicated
count is 0 in any non-dedicated mode and `4 * (sum of cloud counts)` in
dedicated mode; the grid count is 0 whenever there is no recommendation or
the area is non-positive. -/
theorem C9_fastener_consistency (rec : Option Combo) (area : ℚ) (m : MountMode)
    (n1 n2 n3 n4 : ℕ) :
    totalClips rec area m n1 n2 n3 n4 =
      estimatedClipsOnGrid rec area + dedicatedCloudClips m n1 n2 n3 n4 ∧
    (m ≠ MountMode.dedicated → dedicatedCloudClips m n1 n2 n3 n4 = 0) ∧
    (m = MountMode.dedicated → dedicatedCloudClips m n1 n2 n3 n4 = 4 * (n1 + n2 + n3 + n4)) ∧
    (rec = none ∨ area ≤ 0 → estimatedClipsOnGrid rec area = 0) := by
  refine ⟨rfl, fun h => ?_, fun h => ?_, fun h => ?_⟩
  · rw [dedicatedCloudClips, if_pos h]
  · rw [dedicatedCloudClips, if_neg (not_not_intro h)]
    ring
  · rcases h with h | h
    · subst h
      rfl
    · cases rec with
      | none => rfl
      | some r => simp [estimatedClipsOnGrid, h]

/-- Witness for C9 at concrete counts, both mount modes, and an absent
recommendation. -/
theorem C9_fastener_consistency_w :
    dedicatedCloudClips MountMode.distributed 1 2 3 4 = 0 ∧
    dedicatedCloudClips MountMode.dedicated 1 2 3 4 = 4 * (1 + 2 + 3 + 4) ∧
    estimatedClipsOnGrid none 5 = 0 :=
  ⟨(C9_fastener_consistency none 5 MountMode.distributed 1 2 3 4).2.1 (by decide),
   (C9_fastener_consistency none 5 MountMode.dedicated 1 2 3 4).2.2.1 rfl,
   (C9_fastener_consistency none 5 MountMode.distributed 1 2 3 4).2.2.2 (Or.inl rfl)⟩

/-- C10: for a combo of `calcCombos` (fixed capacity 36) with a finite
positive load `q`, passing is equivalent to a safety margin of at least 1,
and a passing combo's safety factor is the finite value `36 / q`, at
least 1. -/
theorem C10_pass_iff_margin (p : ComboParams) (c : Combo) (q : ℚ)
    (hcap : p.clipCap = 36) (hc : c ∈ calcCombos p)
    (hl : c.loadPerClip = JsNum.fin q) (hq : 0 < q) :
    (c.pass = true ↔ 1 ≤ 36 / q) ∧
    (c.pass = true → c.safety = JsNum.fin (36 / q) ∧ 1 ≤ 36 / q) := by
  obtain ⟨ch, _, cl, _, rfl⟩ := mem_calcCombos.mp hc
  have hpass : (mkCombo p.gridPsf p.clipCap ch cl).pass = decide (q ≤ 36) := by
    rw [mkCombo_pass_eq, hl, hcap]
    simp [JsNum.isFinite, JsNum.leb]
  have hiff : q ≤ 36 ↔ 1 ≤ 36 / q := (one_le_div hq).symm
  constructor
  · rw [hpass]
    simp [hiff]
  · intro hp
    have hq36 : q ≤ 36 := by
      rw [hpass] at hp
      exact of_decide_eq_true hp
    refine ⟨?_, hiff.mp hq36⟩
    rw [mkCombo_safety_eq, hl, hcap]
    simp [JsNum.isFinite, JsNum.ltb, hq, JsNum.div, ne_of_gt hq]

/-- Witness for C10 at the passing scenario-1 combo (16, 48). -/
theorem C10_pass_iff_margin_w :
    ((mkCombo (JsNum.fin (49 / 10)) 36 16 48).pass = true ↔
      1 ≤ 36 / (16 * 48 / 144 * (49 / 10) : ℚ)) ∧
    ((mkCombo (JsNum.fin (49 / 10)) 36 16 48).pass = true →
      (mkCombo (JsNum.fin (49 / 10)) 36 16 48).safety =
        JsNum.fin (36 / (16 * 48 / 144 * (49 / 10) : ℚ)) ∧
      1 ≤ 36 / (16 * 48 / 144 * (49 / 10) : ℚ)) :=
  C10_pass_iff_margin pEx (mkCombo (JsNum.fin (49 / 10)) 36 16 48)
    (16 * 48 / 144 * (49 / 10)) rfl (by with_unfolding_all decide) rfl (by norm_num)
